import Mathlib

/-!
Verification of the `aeo-seo-helper` rank-monitoring and content-audit
pipeline (`app/services.py`, with the structured-analysis entry point of
`app/main.py` / `app/schemas.py`).

The Python functions are shallowly embedded as executable Lean functions.
Python strings are modelled as Lean `String` (lists of Unicode code points);
`str.strip` / `str.splitlines` / `str.join` / slicing / `in` are modelled by
the `py_*` helpers below.  External effects (HTTP calls to the Naver search
API, the Gemini generation service, page fetches) are passed in as explicit
oracle arguments, and Python exceptions are modelled with `Except` /
`Option` results.
-/

deriving instance DecidableEq for Except

namespace AeoSeoHelper

/-! ## Python string primitives -/

/-- Python whitespace test used by `str.strip` (modelled on the common
ASCII whitespace characters). -/
def py_space (c : Char) : Bool := c.isWhitespace

/-- Python `str.strip()`: drop leading and trailing whitespace characters. -/
def py_strip_chars (l : List Char) : List Char :=
  ((l.dropWhile py_space).reverse.dropWhile py_space).reverse

/-- Python `str.strip()` on `String`. -/
def py_strip (s : String) : String := ⟨py_strip_chars s.data⟩

/-- Python substring containment `needle in hay`. -/
def py_in (needle hay : String) : Bool := decide (needle.data <:+: hay.data)

/-- Python `str.isdigit()` restricted to decimal digits: non-empty and all
characters in `0`..`9`. -/
def py_isdigit (l : List Char) : Bool := !l.isEmpty && l.all Char.isDigit

/-- Python `sep.join(xs)`. -/
def py_join (sep : String) : List String → String
  | [] => ""
  | [x] => x
  | x :: y :: rest => x ++ sep ++ py_join sep (y :: rest)

/-- Worker for `py_splitlines`: splits on `\n`, `\r` and `\r\n`,
accumulating the current (reversed) line in `acc`. -/
def py_splitlines_aux : List Char → List Char → List (List Char)
  | [], acc => if acc.isEmpty then [] else [acc.reverse]
  | '\r' :: '\n' :: rest, acc => acc.reverse :: py_splitlines_aux rest []
  | '\r' :: rest, acc => acc.reverse :: py_splitlines_aux rest []
  | '\n' :: rest, acc => acc.reverse :: py_splitlines_aux rest []
  | c :: rest, acc => py_splitlines_aux rest (c :: acc)

/-- Python `str.splitlines()` (line boundaries `\n`, `\r`, `\r\n`; no
trailing empty line for a trailing terminator; `""` gives `[]`). -/
def py_splitlines (s : String) : List String :=
  (py_splitlines_aux s.data []).map fun l => ⟨l⟩

/-- Python slicing `s[:n]` (by code points). -/
def py_slice_to (s : String) (n : Nat) : String := ⟨s.data.take n⟩

/-- Python lexicographic string comparison `a < b` on code points:
the first differing character decides; a proper prefix is smaller. -/
def chars_le : List Char → List Char → Bool
  | [], _ => true
  | _ :: _, [] => false
  | a :: as, b :: bs => if a = b then chars_le as bs else decide (a.toNat < b.toNat)

/-- The ordering used by Python `sorted` on strings, as a relation. -/
def PyLe (a b : String) : Prop := chars_le a.data b.data = true

instance : DecidableRel PyLe := fun a b =>
  inferInstanceAs (Decidable (chars_le a.data b.data = true))

/-! ## `app/services.py` — common utilities -/

/-- `services._split_csv`: split a comma-separated optional string,
stripping each piece and discarding blank pieces (`None` and `""` give
`[]`). -/
def _split_csv (text : Option String) : List String :=
  match text with
  | none => []
  | some t =>
    if t = "" then []
    else ((t.data.splitOn ',').map fun piece => py_strip ⟨piece⟩).filter fun x => x ≠ ""

/-! ## `services.generate_blog_post` — banned-terms union and
text post-processing -/

/-- The fixed built-in disallow-list `default_banned` of
`services.generate_blog_post`. -/
def default_banned : List String :=
  ["효과", "효능", "개선", "주름개선", "탄력개선", "리프팅", "안티에이징",
   "치료", "치유", "회복", "통증 완화", "스트레스 완화", "임상", "임상으로 입증"]

/-- Python `sorted(set(defaults + user_banned))` with
`user_banned = _split_csv raw`: deduplicate, then sort by the string
order. -/
def sorted_set_union (defaults : List String) (raw : Option String) : List String :=
  List.insertionSort PyLe (defaults ++ _split_csv raw).dedup

/-- `banned_terms_list` as computed in `services.generate_blog_post`:
the sorted deduplicated union of the built-in list and the caller's
comma-separated terms. -/
def banned_terms_list (banned_terms_raw : Option String) : List String :=
  sorted_set_union default_banned banned_terms_raw

/-- The post-processing safety net of `services.generate_blog_post`
(lines 223-225): if the generated text contains no `<p` paragraph
marker, wrap each non-empty stripped line in `<p>...</p>` and join the
lines with newlines; otherwise return the text unchanged. -/
def postprocess_generated (text : String) : String :=
  if py_in "<p" text then text
  else
    py_join "\n"
      ((((py_splitlines text).map py_strip).filter fun line => line ≠ "").map
        fun line => "<p>" ++ line ++ "</p>")

/-- Lines 220-227 of `services.generate_blog_post`: the whole handling
of the generation response text — `(response.text or "").strip()`
followed by the paragraph-wrapping safety net.  `response_text` is
`none` when the service returned no text. -/
def normalize_generated (response_text : Option String) : String :=
  postprocess_generated (py_strip (response_text.getD ""))

/-! ## `services.scrape_url_content` -/

/-- An HTML node as the scraper consumes it: only its
`get_text(separator="\n", strip=True)` result is relevant. -/
structure HtmlNode where
  text : String
deriving DecidableEq

/-- A parsed HTML document as the scraper consumes it:
`select_one` for a CSS selector and the optional `body` element. -/
structure ContentDoc where
  select_one : String → Option HtmlNode
  body : Option HtmlNode

/-- The `iframe#mainFrame` tag: only its `src` attribute is read
(`iframe.get("src")` is `None` when the attribute is missing). -/
structure FrameTag where
  src : Option String
deriving DecidableEq

/-- The fetched top-level page: its parsed document and the result of
`soup1.select_one("iframe#mainFrame")`. -/
structure BlogPage where
  doc : ContentDoc
  main_frame : Option FrameTag

/-- The prioritized selector list of `services.scrape_url_content`. -/
def selectors : List String :=
  ["div.se-main-container", "#postViewArea", "div#postViewArea", "div#contentArea"]

/-- The error message raised when the iframe has no usable `src`. -/
def iframe_src_error : String := "네이버 블로그 iframe src를 찾을 수 없습니다."

/-- Resolution of a relative iframe `src` against the platform origin. -/
def iframe_url (src : String) : String :=
  if src.startsWith "/" then "https://blog.naver.com" ++ src else src

/-- Lines 255-271 of `services.scrape_url_content`: pick the content
document.  No `iframe#mainFrame` means the top-level document is used;
a frame with a missing or empty `src` raises; otherwise the frame
document is fetched (the fetch itself may fail). -/
def resolve_content_doc (page : BlogPage)
    (fetch_frame : String → Except String ContentDoc) : Except String ContentDoc :=
  match page.main_frame with
  | none => .ok page.doc
  | some iframe =>
    match iframe.src with
    | none => .error iframe_src_error
    | some src =>
      if src = "" then .error iframe_src_error
      else fetch_frame (iframe_url src)

/-- The maximum extracted-content length (`max_len` in the source). -/
def max_content_len : Nat := 8000

/-- The final truncation `text[:8000]` of `services.scrape_url_content`. -/
def truncate_content (s : String) : String :=
  if s.length > max_content_len then py_slice_to s max_content_len else s

/-- The text of the first selector in `selectors` that matches, or `""`
when none matches (the loop of lines 280-285). -/
def first_selector_text (doc : ContentDoc) : String :=
  ((selectors.findSome? doc.select_one).map HtmlNode.text).getD ""

/-- Lines 273-300 of `services.scrape_url_content`: extract text from
the first matching container, fall back to the body when the result is
blank, raise when even the body is absent or blank, truncate. -/
def extract_content_text (doc : ContentDoc) : Except String String :=
  let text := first_selector_text doc
  if py_strip text = "" then
    match doc.body with
    | none => .error "본문을 찾을 수 없습니다. (body 요소 없음)"
    | some body =>
      let text := body.text
      if py_strip text = "" then .error "본문 텍스트가 비어 있습니다. 다른 URL을 시도해보세요."
      else .ok (truncate_content text)
  else .ok (truncate_content text)

/-- `services.scrape_url_content` after the first page fetch: resolve
the content document (following the iframe indirection) and extract its
text. -/
def scrape_url_content (page : BlogPage)
    (fetch_frame : String → Except String ContentDoc) : Except String String :=
  match resolve_content_doc page fetch_frame with
  | .error e => .error e
  | .ok doc => extract_content_text doc

/-! ## URL parsing (`urllib.parse.urlparse` / `parse_qs`), as used by
`services._extract_logno_from_url` -/

/-- Split a character list at the first occurrence of `c`: the part
before it, and (when found) the part after it. -/
def break_at (c : Char) : List Char → List Char × Option (List Char)
  | [] => ([], none)
  | x :: xs =>
    if x = c then ([], some xs)
    else
      let r := break_at c xs
      (x :: r.1, r.2)

/-- Characters allowed in a URL scheme after the first letter. -/
def scheme_char (c : Char) : Bool := c.isAlphanum || c = '+' || c = '-' || c = '.'

/-- Drop a leading `scheme:` when the text before the first `:` is a
non-empty valid scheme (first character a letter, remainder scheme
characters), as `urlsplit` does. -/
def strip_scheme (l : List Char) : List Char :=
  let r := break_at ':' l
  match r.2 with
  | none => l
  | some rest =>
    match r.1 with
    | [] => l
    | c0 :: cs => if c0.isAlpha && (c0 :: cs).all scheme_char then rest else l

/-- Drop a leading `//netloc`: after `//`, the authority runs until the
first `/`, `?` or `#`, which stays in the remainder. -/
def strip_netloc (l : List Char) : List Char :=
  match l with
  | '/' :: '/' :: rest => rest.dropWhile fun c => !(c = '/' || c = '?' || c = '#')
  | _ => l

/-- The `path` and `query` components of `urllib.parse.urlparse`
(scheme, authority and fragment are discarded; percent-decoding is not
modelled, characters are taken verbatim). -/
def urlsplit_path_query (url : String) : List Char × List Char :=
  let l := strip_netloc (strip_scheme url.data)
  let noFrag := (break_at '#' l).1
  let r := break_at '?' noFrag
  (r.1, r.2.getD [])

/-- `urllib.parse.parse_qsl` with default arguments on the query
component: split on `&`, skip empty chunks, skip chunks without `=`,
skip pairs with an empty value, replace `+` by a space (percent-decoding
is not modelled). -/
def parse_qsl (query : List Char) : List (String × String) :=
  (query.splitOn '&').filterMap fun chunk =>
    match break_at '=' chunk with
    | (_, none) => none
    | (name, some value) =>
      if value = [] then none
      else
        some (⟨name.map fun c => if c = '+' then ' ' else c⟩,
              ⟨value.map fun c => if c = '+' then ' ' else c⟩)

/-- `parse_qs(query)[key][0]`: the first value recorded for `key`
(`none` when the key is absent, i.e. `key in qs` is false). -/
def qs_get_first (pairs : List (String × String)) (key : String) : Option String :=
  (pairs.find? fun p => p.1 = key).map fun p => p.2

/-- The path fallback of `services._extract_logno_from_url` (lines
406-412): split the path on `/`, discard empty segments, and accept the
last segment when it is all digits. -/
def path_last_digit (path : List Char) : Option String :=
  match ((path.splitOn '/').filter fun p => p ≠ []).getLast? with
  | none => none
  | some last => if py_isdigit last then some ⟨last⟩ else none

/-- `services._extract_logno_from_url`: a non-empty `logNo` query
parameter wins; otherwise the last non-empty path segment when it is all
digits; otherwise `none`. -/
def _extract_logno_from_url (url : String) : Option String :=
  let pq := urlsplit_path_query url
  match qs_get_first (parse_qsl pq.2) "logNo" with
  | some v => some v
  | none => path_last_digit pq.1

/-! ## `services.check_naver_rank` -/

/-- One item of a Naver search response; `link` is `none` when the
`link` key is missing (`item.get("link", "")` then yields `""`). -/
structure SearchItem where
  link : Option String
deriving DecidableEq

/-- A parsed Naver search API response body; `items` is `none` when the
`items` key is missing (`json.get("items", [])` then yields `[]`). -/
structure NaverJson where
  items : Option (List SearchItem)
deriving DecidableEq

/-- Worker for `services._find_rank_in_items`, mirroring
`enumerate(items)`. -/
def find_rank_aux (target_logno : String) : List SearchItem → Nat → Option Nat
  | [], _ => none
  | item :: rest, idx =>
    let link := (item.link).getD ""
    if target_logno ≠ "" && py_in target_logno link then some (idx + 1)
    else find_rank_aux target_logno rest (idx + 1)

/-- `services._find_rank_in_items`: 1-based position of the first item
whose link contains `target_logno` (Python truthiness: an empty target
never matches), else `none`. -/
def _find_rank_in_items (items : List SearchItem) (target_logno : String) : Option Nat :=
  find_rank_aux target_logno items 0

/-- The result dictionary of `services.check_naver_rank`. -/
structure RankCheckResult where
  keyword : String
  blog_url : String
  log_no : Option String
  web_rank : Option Nat
  blog_rank : Option Nat
deriving DecidableEq

/-- The error message raised when no post identifier can be derived. -/
def logno_error : String := "블로그 URL에서 글 번호(logNo)를 추출할 수 없습니다."

/-- `services.check_naver_rank`.  The two Naver search API calls are
passed in as oracles mapping the requested `display` count to either a
response body or a raised error; a raised call is caught and logged,
leaving that category's rank `None` (lines 487-511).  The identifier
check mirrors Python truthiness (`if not target_logno`). -/
def check_naver_rank (keyword blog_url : String) (max_rank_to_check : Nat)
    (blog_api web_api : Nat → Except String NaverJson) : Except String RankCheckResult :=
  match _extract_logno_from_url blog_url with
  | none => .error logno_error
  | some target_logno =>
    if target_logno = "" then .error logno_error
    else
      let blog_rank :=
        match blog_api max_rank_to_check with
        | .ok j => _find_rank_in_items (j.items.getD []) target_logno
        | .error _ => none
      let web_rank :=
        match web_api max_rank_to_check with
        | .ok j => _find_rank_in_items (j.items.getD []) target_logno
        | .error _ => none
      .ok { keyword := keyword, blog_url := blog_url, log_no := some target_logno,
            web_rank := web_rank, blog_rank := blog_rank }

/-! ## Structured-analysis normalizer (`services.analyze_blog_post_json`) -/

/-- `app/schemas.py` `ImprovementIssue`. -/
structure ImprovementIssue where
  title : String
  severity : String
  evidence : Option String
  impact : Option String
  fix : Option String
deriving DecidableEq

/-- `app/schemas.py` `ImprovementFAQ`. -/
structure ImprovementFAQ where
  q : String
  a : String
deriving DecidableEq

/-- `app/schemas.py` `ImprovementAnalysisScores` (the `structure` field
is renamed `structure_score`, `structure` being a Lean keyword). -/
structure ImprovementAnalysisScores where
  seo : Option Int
  readability : Option Int
  structure_score : Option Int
  keyword : Option Int
deriving DecidableEq

/-- `app/schemas.py` `ImprovementAnalysisMetrics`. -/
structure ImprovementAnalysisMetrics where
  estimated_paragraphs : Option Int
  estimated_words : Option Int
  intro_has_keyword : Option Bool
  intro_has_brand_or_product : Option Bool
  faq_count : Option Int
  video_slot_count : Option Int
deriving DecidableEq

/-- `app/schemas.py` `ImprovementAnalysis`; `extras` models the open
extension bag admitted by `model_config extra = "allow"`. -/
structure ImprovementAnalysis where
  summary : Option String
  scores : Option ImprovementAnalysisScores
  metrics : Option ImprovementAnalysisMetrics
  issues : List ImprovementIssue
  rewrite_plan : List String
  suggested_outline : List String
  faq : List ImprovementFAQ
  video_slots : List String
  final_checklist : List String
  raw_text : Option String
  extras : List (String × String)
deriving DecidableEq

/-- The paragraph units of a joined text: the segments obtained by
splitting on the newline character (used to state what the generated
post-processing produces, independently of how it joins). -/
def units_of (s : String) : List String := (s.data.splitOn '\n').map fun l => ⟨l⟩

/-- Modelled from the spec: `services.analyze_blog_post_json` is invoked
by `improvement_action` (app/main.py line 547) but its definition is not
among the sources; per spec §4.5 each attempt sends one generation
request and validates the raw response against the `ImprovementAnalysis`
schema, retrying on validation failure while retries remain.
`responses` is the generation oracle (raw text of the i-th attempt) and
`validate` the schema parser/validator. -/
def analyze_attempts (responses : Nat → String)
    (validate : String → Option ImprovementAnalysis) :
    Nat → Nat → Option ImprovementAnalysis × String
  | attempt, fuel =>
    let raw := responses attempt
    match validate raw with
    | some parsed => (some parsed, raw)
    | none =>
      match fuel with
      | 0 => (none, raw)
      | f + 1 => analyze_attempts responses validate (attempt + 1) f

/-- Modelled from the spec: `services.analyze_blog_post_json`
(see `analyze_attempts`) — attempt 0 plus up to `max_retries` retries;
on success return the structured object with the raw text, otherwise
fall back to `(none, raw text of the last attempt)` without raising. -/
def analyze_blog_post_json (responses : Nat → String)
    (validate : String → Option ImprovementAnalysis) (max_retries : Nat) :
    Option ImprovementAnalysis × String :=
  analyze_attempts responses validate 0 max_retries

/-! ## Helper lemmas -/

theorem str_ne_empty_iff (s : String) : s ≠ "" ↔ s.data ≠ [] := by
  constructor
  · intro h hd
    apply h
    show (⟨s.data⟩ : String) = ""
    rw [hd]
  · intro h he
    apply h
    rw [he]

theorem py_strip_data_mem {s : String} {c : Char} (h : c ∈ (py_strip s).data) : c ∈ s.data := by
  have h1 : c ∈ (s.data.dropWhile py_space).reverse.dropWhile py_space := by
    simpa [py_strip, py_strip_chars] using h
  have h2 := (List.dropWhile_sublist (l := (s.data.dropWhile py_space).reverse)
    (p := py_space)).mem h1
  have h3 : c ∈ s.data.dropWhile py_space := List.mem_reverse.mp h2
  exact (List.dropWhile_sublist (l := s.data) (p := py_space)).mem h3

theorem ne_empty_of_py_strip_ne {s : String} (h : py_strip s ≠ "") : s ≠ "" := by
  intro he
  apply h
  rw [he]
  rfl

theorem truncate_content_ne_empty {s : String} (h : s ≠ "") : truncate_content s ≠ "" := by
  unfold truncate_content
  split
  · rw [str_ne_empty_iff] at h ⊢
    show s.data.take max_content_len ≠ []
    intro hc
    rw [List.take_eq_nil_iff] at hc
    rcases hc with hc | hc
    all_goals first
    | exact h hc
    | simp [max_content_len] at hc
  · exact h

theorem truncate_content_length_le (s : String) :
    (truncate_content s).length ≤ max_content_len := by
  unfold truncate_content
  split
  · show (py_slice_to s max_content_len).length ≤ max_content_len
    show (s.data.take max_content_len).length ≤ max_content_len
    simp [List.length_take]
  · omega

theorem parse_qsl_value_ne_empty {q : List Char} {p : String × String}
    (h : p ∈ parse_qsl q) : p.2 ≠ "" := by
  unfold parse_qsl at h
  rcases List.mem_filterMap.mp h with ⟨chunk, _, hf⟩
  rcases hb : break_at '=' chunk with ⟨name, value?⟩
  rw [hb] at hf
  cases value? with
  | none => simp at hf
  | some value =>
    by_cases hv : value = []
    · simp [hv] at hf
    · simp only [if_neg hv, Option.some.injEq] at hf
      rw [str_ne_empty_iff]
      have : p.2 = ⟨value.map fun c => if c = '+' then ' ' else c⟩ := by
        rw [← hf]
      rw [this]
      simpa using hv

theorem qs_get_first_mem {pairs : List (String × String)} {key v : String}
    (h : qs_get_first pairs key = some v) : ∃ p ∈ pairs, p.1 = key ∧ p.2 = v := by
  unfold qs_get_first at h
  rcases hf : pairs.find? fun p => p.1 = key with _ | p
  · rw [hf] at h; simp at h
  · rw [hf] at h
    simp only [Option.map_some', Option.some.injEq] at h
    refine ⟨p, List.mem_of_find?_eq_some hf, ?_, h⟩
    have := List.find?_some hf
    simpa using this

theorem py_isdigit_ne_nil {l : List Char} (h : py_isdigit l = true) : l ≠ [] := by
  unfold py_isdigit at h
  simp only [Bool.and_eq_true, Bool.not_eq_true'] at h
  intro he
  rw [he] at h
  simp at h

theorem path_last_digit_ne_some_empty (path : List Char) :
    path_last_digit path ≠ some "" := by
  unfold path_last_digit
  split
  · simp
  next last _ =>
    split
    next hd =>
      intro hcon
      simp only [Option.some.injEq] at hcon
      apply py_isdigit_ne_nil hd
      have : (⟨last⟩ : String).data = ("" : String).data := by rw [hcon]
      simpa using this
    next => simp

theorem _extract_ne_some_empty (url : String) : _extract_logno_from_url url ≠ some "" := by
  simp only [_extract_logno_from_url]
  split
  next v hq =>
    intro hv
    simp only [Option.some.injEq] at hv
    rcases qs_get_first_mem hq with ⟨p, hp, _, hpv⟩
    exact parse_qsl_value_ne_empty hp (hpv.trans hv)
  next => exact path_last_digit_ne_some_empty _

theorem find_rank_aux_bounds {t : String} :
    ∀ (items : List SearchItem) (idx r : Nat),
      find_rank_aux t items idx = some r → idx < r ∧ r ≤ idx + items.length := by
  intro items
  induction items with
  | nil => intro idx r h; simp [find_rank_aux] at h
  | cons item rest ih =>
    intro idx r h
    rw [find_rank_aux] at h
    split at h
    · simp only [Option.some.injEq] at h
      simp only [List.length_cons]
      omega
    · have := ih (idx + 1) r h
      simp only [List.length_cons]
      omega

theorem _find_rank_in_items_bounds {items : List SearchItem} {t : String} {r : Nat}
    (h : _find_rank_in_items items t = some r) : 1 ≤ r ∧ r ≤ items.length := by
  have := find_rank_aux_bounds items 0 r h
  omega

theorem find_rank_aux_eq_findIdx {t : String} (ht : t ≠ "") :
    ∀ (items : List SearchItem) (idx : Nat),
      find_rank_aux t items idx
        = (List.findIdx? (fun it => py_in t ((it.link).getD "")) items idx).map (· + 1) := by
  intro items
  induction items with
  | nil => intro idx; rfl
  | cons item rest ih =>
    intro idx
    rw [find_rank_aux, List.findIdx?_cons]
    by_cases h : py_in t ((item.link).getD "") = true
    · simp [ht, h]
    · simp only [h, Bool.and_false, if_false]
      simp only [Bool.not_eq_true] at h
      simp [ht, h, ih]

theorem _find_rank_in_items_eq_findIdx {items : List SearchItem} {t : String} (ht : t ≠ "") :
    _find_rank_in_items items t
      = (List.findIdx? (fun it => py_in t ((it.link).getD "")) items).map (· + 1) :=
  find_rank_aux_eq_findIdx ht items 0

theorem chars_le_refl : ∀ l : List Char, chars_le l l = true := by
  intro l
  induction l with
  | nil => rfl
  | cons a as ih => simp [chars_le, ih]

theorem chars_le_total : ∀ a b : List Char, chars_le a b = true ∨ chars_le b a = true := by
  intro a
  induction a with
  | nil => intro b; left; rfl
  | cons x xs ih =>
    intro b
    cases b with
    | nil => right; rfl
    | cons y ys =>
      by_cases hxy : x = y
      · subst hxy
        simpa [chars_le] using ih ys
      · have hne : x.toNat ≠ y.toNat := by
          intro hn
          apply hxy
          apply Char.eq_of_val_eq
          apply UInt32.eq_of_toBitVec_eq
          apply BitVec.eq_of_toNat_eq
          exact hn
        simp only [chars_le, if_neg hxy, if_neg (Ne.symm hxy)]
        rcases Nat.lt_or_ge x.toNat y.toNat with h | h
        · left; simpa using h
        · right; simp; omega

theorem chars_le_trans :
    ∀ a b c : List Char, chars_le a b = true → chars_le b c = true → chars_le a c = true := by
  intro a
  induction a with
  | nil => intro b c _ _; rfl
  | cons x xs ih =>
    intro b c hab hbc
    cases b with
    | nil => simp [chars_le] at hab
    | cons y ys =>
      cases c with
      | nil => simp [chars_le] at hbc
      | cons z zs =>
        have toNat_inj : ∀ u v : Char, u.toNat = v.toNat → u = v := by
          intro u v hn
          apply Char.eq_of_val_eq
          apply UInt32.eq_of_toBitVec_eq
          apply BitVec.eq_of_toNat_eq
          exact hn
        by_cases hxy : x = y <;> by_cases hyz : y = z
        · subst hxy; subst hyz
          simp only [chars_le, if_pos rfl] at hab hbc ⊢
          exact ih ys zs hab hbc
        · subst hxy
          simp only [chars_le, if_pos rfl, if_neg hyz] at hbc ⊢
          exact hbc
        · subst hyz
          simp only [chars_le, if_pos rfl, if_neg hxy] at hab ⊢
          exact hab
        · simp only [chars_le, if_neg hxy, if_neg hyz] at hab hbc
          have h1 : x.toNat < y.toNat := by simpa using hab
          have h2 : y.toNat < z.toNat := by simpa using hbc
          have hxz : x ≠ z := by
            intro he
            subst he
            omega
          simp only [chars_le, if_neg hxz]
          simp
          omega

instance : IsTotal String PyLe := ⟨fun a b => chars_le_total a.data b.data⟩

instance : IsTrans String PyLe := ⟨fun a b c => chars_le_trans a.data b.data c.data⟩

instance : IsRefl String PyLe := ⟨fun a => chars_le_refl a.data⟩

theorem py_splitlines_aux_no_newline :
    ∀ (l acc : List Char), (∀ c ∈ acc, c ≠ '\n' ∧ c ≠ '\r') →
      ∀ piece ∈ py_splitlines_aux l acc, ∀ c ∈ piece, c ≠ '\n' ∧ c ≠ '\r' := by
  intro l acc
  induction l, acc using py_splitlines_aux.induct with
  | case1 acc hemp =>
    intro _ piece hp c hc
    simp only [py_splitlines_aux, hemp, if_true] at hp
    simp at hp
  | case2 acc hemp =>
    intro hacc piece hp c hc
    simp only [py_splitlines_aux, hemp, if_false] at hp
    simp at hp
    subst hp
    exact hacc c (List.mem_reverse.mp hc)
  | case3 rest acc ih =>
    intro hacc piece hp c hc
    simp only [py_splitlines_aux] at hp
    rcases List.mem_cons.mp hp with h | h
    · subst h; exact hacc c (List.mem_reverse.mp hc)
    · exact ih (by simp) piece h c hc
  | case4 rest acc hne ih =>
    intro hacc piece hp c hc
    rw [py_splitlines_aux] at hp
    rotate_left
    · exact hne
    rcases List.mem_cons.mp hp with h | h
    · subst h; exact hacc c (List.mem_reverse.mp hc)
    · exact ih (by simp) piece h c hc
  | case5 rest acc ih =>
    intro hacc piece hp c hc
    simp only [py_splitlines_aux] at hp
    rcases List.mem_cons.mp hp with h | h
    · subst h; exact hacc c (List.mem_reverse.mp hc)
    · exact ih (by simp) piece h c hc
  | case6 d rest acc h1 h2 h3 ih =>
    intro hacc piece hp c hc
    rw [py_splitlines_aux] at hp
    rotate_left
    · exact h1
    · exact h2
    · exact h3
    apply ih _ piece hp c hc
    intro e he
    rcases List.mem_cons.mp he with h | h
    · subst h
      exact ⟨fun hh => h3 hh, fun hh => h2 hh⟩
    · exact hacc e h

theorem py_splitlines_no_newline {s line : String} (h : line ∈ py_splitlines s) :
    ∀ c ∈ line.data, c ≠ '\n' ∧ c ≠ '\r' := by
  intro c hc
  unfold py_splitlines at h
  rcases List.mem_map.mp h with ⟨piece, hp, he⟩
  have hdata : line.data = piece := by rw [← he]
  rw [hdata] at hc
  exact py_splitlines_aux_no_newline s.data [] (by simp) piece hp c hc

theorem splitOn_no_sep {l : List Char} (hl : '\n' ∉ l) : l.splitOn '\n' = [l] := by
  simp only [List.splitOn]
  apply List.splitOnP_eq_single
  intro x hx
  simp only [beq_iff_eq]
  intro he
  subst he
  exact hl hx

theorem splitOn_append_sep {l as : List Char} (hl : '\n' ∉ l) :
    (l ++ '\n' :: as).splitOn '\n' = l :: as.splitOn '\n' := by
  simp only [List.splitOn]
  apply List.splitOnP_first
  · intro x hx
    simp only [beq_iff_eq]
    intro he
    subst he
    exact hl hx
  · simp

theorem data_py_join_cons (x y : String) (rest : List String) :
    (py_join "\n" (x :: y :: rest)).data
      = x.data ++ '\n' :: (py_join "\n" (y :: rest)).data := by
  rw [py_join]
  rw [String.data_append, String.data_append]
  simp

theorem units_of_py_join (ws : List String) (hw : ∀ w ∈ ws, '\n' ∉ w.data) (hne : ws ≠ []) :
    units_of (py_join "\n" ws) = ws := by
  induction ws with
  | nil => exact absurd rfl hne
  | cons x rest ih =>
    cases rest with
    | nil =>
      show units_of x = [x]
      unfold units_of
      rw [splitOn_no_sep (hw x (by simp))]
      simp
    | cons y rest2 =>
      unfold units_of
      rw [data_py_join_cons]
      rw [splitOn_append_sep (hw x (by simp))]
      have hrec := ih (fun w hwm => hw w (List.mem_cons_of_mem x hwm)) (by simp)
      unfold units_of at hrec
      rw [List.map_cons, hrec]

theorem analyze_attempts_all_fail (responses : Nat → String)
    (validate : String → Option ImprovementAnalysis) :
    ∀ (fuel attempt : Nat),
      (∀ i, attempt ≤ i → i ≤ attempt + fuel → validate (responses i) = none) →
      analyze_attempts responses validate attempt fuel = (none, responses (attempt + fuel)) := by
  intro fuel
  induction fuel with
  | zero =>
    intro attempt h
    simp only [analyze_attempts, h attempt le_rfl (by omega), Nat.add_zero]
  | succ f ih =>
    intro attempt h
    simp only [analyze_attempts, h attempt le_rfl (by omega)]
    rw [ih (attempt + 1) fun i h1 h2 => h i (by omega) (by omega)]
    congr 2
    omega

theorem extract_some_ne_empty {url t : String} (h : _extract_logno_from_url url = some t) :
    t ≠ "" := by
  intro he
  exact _extract_ne_some_empty url (he ▸ h)

theorem check_naver_rank_eq {blog_url t : String} (keyword : String) (maxN : Nat)
    (blog_api web_api : Nat → Except String NaverJson)
    (hext : _extract_logno_from_url blog_url = some t) :
    check_naver_rank keyword blog_url maxN blog_api web_api
      = .ok ⟨keyword, blog_url, some t,
          (match web_api maxN with
            | .ok j => _find_rank_in_items (j.items.getD []) t
            | .error _ => none),
          (match blog_api maxN with
            | .ok j => _find_rank_in_items (j.items.getD []) t
            | .error _ => none)⟩ := by
  have hne : t ≠ "" := extract_some_ne_empty hext
  simp only [check_naver_rank, hext, if_neg hne]

theorem check_naver_rank_none {blog_url : String} (keyword : String) (maxN : Nat)
    (blog_api web_api : Nat → Except String NaverJson)
    (hext : _extract_logno_from_url blog_url = none) :
    check_naver_rank keyword blog_url maxN blog_api web_api = .error logno_error := by
  simp only [check_naver_rank, hext]

/-! ## The claims -/

/-- C2: when the post identifier is extractable, a failure of either
search category's call is swallowed: the result is still returned, the
failing category's rank is absent, and the other category's rank is the
normal rank computed from its own (unaffected) response.  Both
categories failing still yields a result with both ranks absent. -/
theorem claim_C2 (keyword blog_url : String) (maxN : Nat)
    (blog_api web_api : Nat → Except String NaverJson) (t : String)
    (hext : _extract_logno_from_url blog_url = some t) :
    (∀ e j, web_api maxN = .error e → blog_api maxN = .ok j →
       check_naver_rank keyword blog_url maxN blog_api web_api
         = .ok ⟨keyword, blog_url, some t, none, _find_rank_in_items (j.items.getD []) t⟩)
    ∧ (∀ e j, blog_api maxN = .error e → web_api maxN = .ok j →
       check_naver_rank keyword blog_url maxN blog_api web_api
         = .ok ⟨keyword, blog_url, some t, _find_rank_in_items (j.items.getD []) t, none⟩)
    ∧ (∀ e e2, blog_api maxN = .error e → web_api maxN = .error e2 →
       check_naver_rank keyword blog_url maxN blog_api web_api
         = .ok ⟨keyword, blog_url, some t, none, none⟩) := by
  refine ⟨?_, ?_, ?_⟩
  · intro e j hw hb
    rw [check_naver_rank_eq keyword maxN blog_api web_api hext, hw, hb]
  · intro e j hb hw
    rw [check_naver_rank_eq keyword maxN blog_api web_api hext, hw, hb]
  · intro e e2 hb hw
    rw [check_naver_rank_eq keyword maxN blog_api web_api hext, hw, hb]

theorem claim_C2_witness :
    check_naver_rank "키워드" "https://blog.naver.com/x/11" 10
        (fun _ => .ok ⟨some [⟨some "net11net"⟩]⟩) (fun _ => .error "timeout")
      = .ok ⟨"키워드", "https://blog.naver.com/x/11", some "11", none, some 1⟩ := by
  have h := (claim_C2 "키워드" "https://blog.naver.com/x/11" 10
    (fun _ => .ok ⟨some [⟨some "net11net"⟩]⟩) (fun _ => .error "timeout") "11"
    (by decide)).1 "timeout" ⟨some [⟨some "net11net"⟩]⟩ rfl rfl
  rw [h]
  decide

/-- C4 (counterexample to the claim as stated): the empty string is a
substring of every link, so the claim predicts rank 1 on a singleton
list for the empty target identifier, but `_find_rank_in_items` reports
absent (the guard `if target_logno and ...` never matches an empty
target). -/
theorem claim_C4_counterexample :
    py_in "" ((SearchItem.mk (some "abc")).link.getD "") = true
      ∧ _find_rank_in_items [SearchItem.mk (some "abc")] "" = none := by
  decide

/-- C4 (amended): for every NON-EMPTY target identifier, rank lookup
returns the 1-based position of the first item whose link contains the
target as a substring, and absent when no item's link contains it; for
the empty target identifier it returns absent regardless of the list. -/
theorem claim_C4 (items : List SearchItem) (t : String) :
    (t ≠ "" → _find_rank_in_items items t
       = (List.findIdx? (fun it => py_in t ((it.link).getD "")) items).map (· + 1))
    ∧ _find_rank_in_items items "" = none := by
  constructor
  · intro ht
    exact _find_rank_in_items_eq_findIdx ht
  · show find_rank_aux "" items 0 = none
    generalize 0 = idx
    induction items generalizing idx with
    | nil => rfl
    | cons item rest ih =>
      rw [find_rank_aux]
      simpa using ih (idx + 1)

theorem claim_C4_witness :
    _find_rank_in_items [⟨some "...224060246982..."⟩, ⟨some "other"⟩] "224060246982"
      = some 1 := by
  rw [(claim_C4 [⟨some "...224060246982..."⟩, ⟨some "other"⟩] "224060246982").1 (by decide)]
  decide

/-- C5: `check_naver_rank` fails (with the identifier error) exactly
when no post identifier can be derived from the URL, and in that case
the outcome is the same error whatever the search oracles and window
are — no search call can influence it and no partial result exists. -/
theorem claim_C5 (keyword blog_url : String) (maxN : Nat)
    (blog_api web_api : Nat → Except String NaverJson) :
    (check_naver_rank keyword blog_url maxN blog_api web_api = .error logno_error
       ↔ _extract_logno_from_url blog_url = none)
    ∧ (_extract_logno_from_url blog_url = none →
        ∀ (maxN2 : Nat) (b w : Nat → Except String NaverJson),
          check_naver_rank keyword blog_url maxN2 b w = .error logno_error) := by
  constructor
  · constructor
    · intro herr
      rcases hext : _extract_logno_from_url blog_url with _ | t
      · rfl
      · rw [check_naver_rank_eq keyword maxN blog_api web_api hext] at herr
        exact absurd herr (by simp)
    · intro hext
      exact check_naver_rank_none keyword maxN blog_api web_api hext
  · intro hext maxN2 b w
    exact check_naver_rank_none keyword maxN2 b w hext

theorem claim_C5_witness :
    check_naver_rank "키워드" "https://blog.naver.com/xxx/notanumber" 10
        (fun _ => .ok ⟨some []⟩) (fun _ => .ok ⟨some []⟩)
      = .error logno_error :=
  (claim_C5 "키워드" "https://blog.naver.com/xxx/notanumber" 10
    (fun _ => .ok ⟨some []⟩) (fun _ => .ok ⟨some []⟩)).2 (by decide) 10
    (fun _ => .ok ⟨some []⟩) (fun _ => .ok ⟨some []⟩)

/-- C9: in any successful rank-check result, each rank that is present
is at least 1 and at most the requested window size, provided each
category's search response holds at most the requested number of
items. -/
theorem claim_C9 (keyword blog_url : String) (maxN : Nat)
    (blog_api web_api : Nat → Except String NaverJson) (res : RankCheckResult)
    (hb : ∀ j, blog_api maxN = .ok j → (j.items.getD []).length ≤ maxN)
    (hw : ∀ j, web_api maxN = .ok j → (j.items.getD []).length ≤ maxN)
    (hres : check_naver_rank keyword blog_url maxN blog_api web_api = .ok res) :
    (∀ r, res.web_rank = some r → 1 ≤ r ∧ r ≤ maxN)
    ∧ (∀ r, res.blog_rank = some r → 1 ≤ r ∧ r ≤ maxN) := by
  rcases hext : _extract_logno_from_url blog_url with _ | t
  · rw [check_naver_rank_none keyword maxN blog_api web_api hext] at hres
    exact absurd hres (by simp)
  · rw [check_naver_rank_eq keyword maxN blog_api web_api hext] at hres
    have hres2 := Except.ok.inj hres
    constructor
    · intro r hr
      rw [← hres2] at hr
      simp only at hr
      rcases hwapi : web_api maxN with e | j
      · rw [hwapi] at hr; simp at hr
      · rw [hwapi] at hr
        simp only at hr
        have hbound := _find_rank_in_items_bounds hr
        have := hw j hwapi
        omega
    · intro r hr
      rw [← hres2] at hr
      simp only at hr
      rcases hbapi : blog_api maxN with e | j
      · rw [hbapi] at hr; simp at hr
      · rw [hbapi] at hr
        simp only at hr
        have hbound := _find_rank_in_items_bounds hr
        have := hb j hbapi
        omega

theorem claim_C9_witness : (1 ≤ 1 ∧ 1 ≤ 10) ∧ (1 ≤ 1 ∧ 1 ≤ 10) := by
  have h := claim_C9 "키워드" "https://blog.naver.com/x/11" 10
    (fun _ => .ok ⟨some [⟨some "net11net"⟩]⟩) (fun _ => .ok ⟨some [⟨some "net11net"⟩]⟩)
    ⟨"키워드", "https://blog.naver.com/x/11", some "11", some 1, some 1⟩
    (fun j hj => by rw [← Except.ok.inj hj]; decide)
    (fun j hj => by rw [← Except.ok.inj hj]; decide)
    (by decide)
  exact ⟨h.1 1 rfl, h.2 1 rfl⟩

/-- C1: when schema validation fails on the initial attempt and on every
retry up to `max_retries`, the structured-analysis normalizer returns an
absent structured result paired with the raw text of the last attempt —
a non-empty plain-text fallback whenever the service returned non-empty
text — and, being a total function, it does not raise. -/
theorem claim_C1 (responses : Nat → String)
    (validate : String → Option ImprovementAnalysis) (max_retries : Nat)
    (hfail : ∀ i, i ≤ max_retries → validate (responses i) = none)
    (hne : responses max_retries ≠ "") :
    analyze_blog_post_json responses validate max_retries = (none, responses max_retries)
    ∧ (analyze_blog_post_json responses validate max_retries).2 ≠ "" := by
  have h := analyze_attempts_all_fail responses validate max_retries 0
    fun i h1 h2 => hfail i (by omega)
  rw [Nat.zero_add] at h
  unfold analyze_blog_post_json
  exact ⟨h, by rw [h]; exact hne⟩

theorem claim_C1_witness :
    analyze_blog_post_json (fun _ => "분석 원문") (fun _ => none) 1 = (none, "분석 원문")
    ∧ (analyze_blog_post_json (fun _ => "분석 원문") (fun _ => none) 1).2 ≠ "" :=
  claim_C1 (fun _ => "분석 원문") (fun _ => none) 1 (fun _ _ => rfl) (by decide)

/-- C6: the banned-terms list computed in `generate_blog_post` is sorted
in the string order, duplicate-free, and contains a term exactly when it
is a built-in banned term or one of the caller's comma-separated terms
(case-sensitive); on the spec's example — built-in list 효과, 효능 and
user input "효능, 신규단어" — the union is exactly 신규단어, 효과, 효능
in sorted order. -/
theorem claim_C6 (raw : Option String) :
    List.Sorted PyLe (banned_terms_list raw)
    ∧ (banned_terms_list raw).Nodup
    ∧ (∀ term : String,
        term ∈ banned_terms_list raw ↔ term ∈ default_banned ∨ term ∈ _split_csv raw)
    ∧ sorted_set_union ["효과", "효능"] (some "효능, 신규단어")
        = ["신규단어", "효과", "효능"] := by
  have hperm := List.perm_insertionSort PyLe (default_banned ++ _split_csv raw).dedup
  refine ⟨List.sorted_insertionSort PyLe _, ?_, ?_, by decide⟩
  · exact hperm.nodup_iff.mpr (List.nodup_dedup _)
  · intro term
    show term ∈ List.insertionSort PyLe (default_banned ++ _split_csv raw).dedup ↔ _
    rw [hperm.mem_iff, List.mem_dedup, List.mem_append]

/-- C3: identifier extraction returns the (first) non-empty `logNo`
query-parameter value whenever one is present — query parameters take
precedence over the path, and parsed parameter values are never empty —
and otherwise returns the last non-empty path segment exactly when that
segment is all decimal digits, and absent when it is not or when there
is no segment (totality models "no exception"). -/
theorem claim_C3 (url : String) :
    (∀ p ∈ parse_qsl (urlsplit_path_query url).2, p.2 ≠ "")
    ∧ ((∃ p ∈ parse_qsl (urlsplit_path_query url).2, p.1 = "logNo") →
        ∃ v, qs_get_first (parse_qsl (urlsplit_path_query url).2) "logNo" = some v
          ∧ v ≠ "" ∧ _extract_logno_from_url url = some v)
    ∧ ((∀ p ∈ parse_qsl (urlsplit_path_query url).2, p.1 ≠ "logNo") →
        (∀ last, (((urlsplit_path_query url).1.splitOn '/').filter
              (fun p => p ≠ [])).getLast? = some last →
            (_extract_logno_from_url url = some ⟨last⟩ ↔ ∀ c ∈ last, c.isDigit)
            ∧ (¬(∀ c ∈ last, c.isDigit) → _extract_logno_from_url url = none))
        ∧ ((((urlsplit_path_query url).1.splitOn '/').filter
              (fun p => p ≠ [])).getLast? = none →
            _extract_logno_from_url url = none)) := by
  refine ⟨fun p hp => parse_qsl_value_ne_empty hp, ?_, ?_⟩
  · rintro ⟨p, hp, hkey⟩
    rcases hfind : (parse_qsl (urlsplit_path_query url).2).find?
        (fun q => q.1 = "logNo") with _ | pr
    · rw [List.find?_eq_none] at hfind
      exact absurd (by simpa using hkey) (hfind p hp)
    · have hq : qs_get_first (parse_qsl (urlsplit_path_query url).2) "logNo" = some pr.2 := by
        rw [qs_get_first, hfind, Option.map_some']
      refine ⟨pr.2, hq, ?_, ?_⟩
      · exact parse_qsl_value_ne_empty (List.mem_of_find?_eq_some hfind)
      · simp only [_extract_logno_from_url, hq]
  · intro hno
    have hq : qs_get_first (parse_qsl (urlsplit_path_query url).2) "logNo" = none := by
      rw [qs_get_first, List.find?_eq_none.mpr]
      · rfl
      · intro p hp
        simpa using hno p hp
    have hex : _extract_logno_from_url url = path_last_digit (urlsplit_path_query url).1 := by
      simp only [_extract_logno_from_url, hq]
    constructor
    · intro last hlast
      have hlast_ne : last ≠ [] := by
        have hopt : last ∈ (((urlsplit_path_query url).1.splitOn '/').filter
            (fun p => p ≠ [])).getLast? := hlast
        rcases List.mem_getLast?_eq_getLast hopt with ⟨hne2, he⟩
        have hmem : last ∈ ((urlsplit_path_query url).1.splitOn '/').filter
            (fun p => p ≠ []) := by
          rw [he]; exact List.getLast_mem hne2
        simpa using List.of_mem_filter hmem
      rw [hex, path_last_digit, hlast]
      dsimp only
      by_cases hd : py_isdigit last = true
      · rw [if_pos hd]
        have hall : ∀ c ∈ last, c.isDigit = true := by
          unfold py_isdigit at hd
          simp only [Bool.and_eq_true, List.all_eq_true] at hd
          exact hd.2
        refine ⟨?_, fun hnot => absurd hall hnot⟩
        simp only [Option.some.injEq, true_iff, eq_self_iff_true]
        exact hall
      · rw [if_neg hd]
        refine ⟨⟨fun hcon => absurd hcon (by simp), fun hall => ?_⟩, fun _ => rfl⟩
        exfalso
        apply hd
        unfold py_isdigit
        simp only [Bool.and_eq_true, List.all_eq_true]
        exact ⟨by simpa using hlast_ne, hall⟩
    · intro hlast
      rw [hex, path_last_digit, hlast]

theorem claim_C3_witness :
    _extract_logno_from_url
        "https://blog.naver.com/PostView.naver?blogId=xxx&logNo=224060246982"
      = some "224060246982" := by
  rcases (claim_C3 "https://blog.naver.com/PostView.naver?blogId=xxx&logNo=224060246982").2.1
      ⟨("logNo", "224060246982"), by decide, rfl⟩ with ⟨v, hv, _, hex⟩
  have hval : qs_get_first (parse_qsl (urlsplit_path_query
        "https://blog.naver.com/PostView.naver?blogId=xxx&logNo=224060246982").2) "logNo"
      = some "224060246982" := by decide
  rw [hval] at hv
  rw [hex]
  exact hv.symm

/-- C7 (counterexample to the claim as stated): a service response that
already contains a paragraph marker is NOT passed through unmodified —
the handler strips the whole response first (line 220), so surrounding
whitespace is removed. -/
theorem claim_C7_counterexample :
    py_in "<p" "  <p>본문</p>  " = true
    ∧ normalize_generated (some "  <p>본문</p>  ") ≠ "  <p>본문</p>  " := by
  decide

/-- C7 (amended): the response handling first strips the whole response
of surrounding whitespace; a stripped text containing a paragraph marker
is then returned unchanged (so the original response is modified only by
that strip), and a marker-free text is turned into exactly one
`<p>`-wrapped unit per non-empty line of the stripped text, in order,
with empty lines dropped (an all-blank text yields the empty output). -/
theorem claim_C7 (response_text : Option String) :
    (py_in "<p" (py_strip (response_text.getD "")) = true →
       normalize_generated response_text = py_strip (response_text.getD ""))
    ∧ (py_in "<p" (py_strip (response_text.getD "")) = false →
        (((py_splitlines (py_strip (response_text.getD ""))).map py_strip).filter
            (fun l => l ≠ "") ≠ [] →
          units_of (normalize_generated response_text)
            = (((py_splitlines (py_strip (response_text.getD ""))).map py_strip).filter
                (fun l => l ≠ "")).map fun line => "<p>" ++ line ++ "</p>")
        ∧ (((py_splitlines (py_strip (response_text.getD ""))).map py_strip).filter
              (fun l => l ≠ "") = [] →
            normalize_generated response_text = "")) := by
  constructor
  · intro hmark
    unfold normalize_generated postprocess_generated
    rw [if_pos hmark]
  · intro hmark
    have hlines : ∀ w ∈ (((py_splitlines (py_strip (response_text.getD ""))).map
          py_strip).filter (fun l => l ≠ "")).map (fun line => "<p>" ++ line ++ "</p>"),
        '\n' ∉ w.data := by
      intro w hw
      rcases List.mem_map.mp hw with ⟨line, hline, hwe⟩
      rcases List.mem_map.mp (List.mem_of_mem_filter hline) with ⟨l0, hl0, hle⟩
      intro hc
      rw [← hwe, String.data_append, String.data_append] at hc
      rcases List.mem_append.mp hc with hc | hc
      · rcases List.mem_append.mp hc with hc | hc
        · exact absurd hc (by decide)
        · have hmem : '\n' ∈ l0.data := by
            rw [← hle] at hc
            exact py_strip_data_mem hc
          exact (py_splitlines_no_newline hl0 '\n' hmem).1 rfl
      · exact absurd hc (by decide)
    constructor
    · intro hne
      unfold normalize_generated postprocess_generated
      rw [if_neg (by simp [hmark])]
      apply units_of_py_join _ hlines
      intro hmap
      exact hne (List.map_eq_nil_iff.mp hmap)
    · intro hemp
      unfold normalize_generated postprocess_generated
      rw [if_neg (by simp [hmark]), hemp]
      rfl

theorem claim_C7_witness :
    units_of (normalize_generated (some "첫 줄\n\n둘째 줄"))
      = ["<p>첫 줄</p>", "<p>둘째 줄</p>"] := by
  have h := (claim_C7 (some "첫 줄\n\n둘째 줄")).2 (by decide)
  rw [h.1 (by decide)]
  decide

/-- C8: once a content document is resolved, the scraper returns the
(truncated) text of the first matching selector when that text is not
blank, falls back to the (truncated) body text when the selector text is
blank, fails exactly when the selector text is blank and the body is
absent or blank too, and every successful result is non-empty and at
most 8000 characters long. -/
theorem claim_C8 (page : BlogPage) (fetch_frame : String → Except String ContentDoc)
    (doc : ContentDoc) (hres : resolve_content_doc page fetch_frame = .ok doc) :
    (∀ out, scrape_url_content page fetch_frame = .ok out →
       out ≠ "" ∧ out.length ≤ max_content_len)
    ∧ (py_strip (first_selector_text doc) ≠ "" →
        scrape_url_content page fetch_frame
          = .ok (truncate_content (first_selector_text doc)))
    ∧ (py_strip (first_selector_text doc) = "" →
        ∀ b, doc.body = some b → py_strip b.text ≠ "" →
          scrape_url_content page fetch_frame = .ok (truncate_content b.text))
    ∧ ((∃ e, scrape_url_content page fetch_frame = .error e) ↔
        (py_strip (first_selector_text doc) = ""
          ∧ (doc.body = none ∨ ∃ b, doc.body = some b ∧ py_strip b.text = ""))) := by
  have hsc : scrape_url_content page fetch_frame = extract_content_text doc := by
    unfold scrape_url_content
    rw [hres]
  refine ⟨?_, ?_, ?_, ?_⟩
  · intro out hout
    rw [hsc] at hout
    simp only [extract_content_text] at hout
    by_cases h1 : py_strip (first_selector_text doc) = ""
    · rw [if_pos h1] at hout
      cases hbody : doc.body with
      | none => rw [hbody] at hout; exact absurd hout (by simp)
      | some b =>
        rw [hbody] at hout
        dsimp only at hout
        by_cases h2 : py_strip b.text = ""
        · rw [if_pos h2] at hout; exact absurd hout (by simp)
        · rw [if_neg h2] at hout
          have hout2 := Except.ok.inj hout
          rw [← hout2]
          exact ⟨truncate_content_ne_empty (ne_empty_of_py_strip_ne h2),
            truncate_content_length_le _⟩
    · rw [if_neg h1] at hout
      have hout2 := Except.ok.inj hout
      rw [← hout2]
      exact ⟨truncate_content_ne_empty (ne_empty_of_py_strip_ne h1),
        truncate_content_length_le _⟩
  · intro h1
    rw [hsc]
    simp only [extract_content_text]
    rw [if_neg h1]
  · intro h1 b hbody h2
    rw [hsc]
    simp only [extract_content_text]
    rw [if_pos h1, hbody]
    dsimp only
    rw [if_neg h2]
  · constructor
    · rintro ⟨e, he⟩
      rw [hsc] at he
      simp only [extract_content_text] at he
      by_cases h1 : py_strip (first_selector_text doc) = ""
      · refine ⟨h1, ?_⟩
        rw [if_pos h1] at he
        cases hbody : doc.body with
        | none => exact Or.inl rfl
        | some b =>
          rw [hbody] at he
          dsimp only at he
          by_cases h2 : py_strip b.text = ""
          · exact Or.inr ⟨b, rfl, h2⟩
          · rw [if_neg h2] at he
            exact absurd he (by simp)
      · rw [if_neg h1] at he
        exact absurd he (by simp)
    · rintro ⟨h1, hb | ⟨b, hb, h2⟩⟩
      · rw [hsc]
        simp only [extract_content_text]
        rw [if_pos h1, hb]
        exact ⟨_, rfl⟩
      · rw [hsc]
        simp only [extract_content_text]
        rw [if_pos h1, hb]
        dsimp only
        rw [if_pos h2]
        exact ⟨_, rfl⟩

theorem claim_C8_witness :
    scrape_url_content
        ⟨⟨fun sel => if sel = "div.se-main-container" then some ⟨"본문 텍스트"⟩ else none,
          some ⟨"바디"⟩⟩, none⟩
        (fun _ => .error "불필요")
      = .ok "본문 텍스트" := by
  have h := (claim_C8
    ⟨⟨fun sel => if sel = "div.se-main-container" then some ⟨"본문 텍스트"⟩ else none,
      some ⟨"바디"⟩⟩, none⟩
    (fun _ => .error "불필요")
    ⟨fun sel => if sel = "div.se-main-container" then some ⟨"본문 텍스트"⟩ else none,
      some ⟨"바디"⟩⟩ rfl).2.1 (by decide)
  rw [h]
  decide

/-- C10: when the fetched page has an `iframe#mainFrame` whose `src`
attribute is missing or empty, the scraper raises instead of falling
back to the top-level document; the top-level document is used only
when no such frame exists, and a frame with a non-empty `src` always
leads to fetching the frame document. -/
theorem claim_C10 (page : BlogPage) (fetch_frame : String → Except String ContentDoc) :
    (page.main_frame = none → resolve_content_doc page fetch_frame = .ok page.doc)
    ∧ (∀ f, page.main_frame = some f →
        ((f.src = none ∨ f.src = some "") →
           resolve_content_doc page fetch_frame = .error iframe_src_error)
        ∧ (resolve_content_doc page fetch_frame = .error iframe_src_error
           ∨ ∃ s, f.src = some s ∧ s ≠ ""
               ∧ resolve_content_doc page fetch_frame = fetch_frame (iframe_url s))) := by
  constructor
  · intro h
    unfold resolve_content_doc
    rw [h]
  · intro f hf
    unfold resolve_content_doc
    rw [hf]
    dsimp only
    constructor
    · rintro (hs | hs) <;> rw [hs]
      dsimp only
      rw [if_pos rfl]
    · rcases hs : f.src with _ | s
      · exact Or.inl rfl
      · by_cases he : s = ""
        · left
          dsimp only
          rw [if_pos he]
        · right
          refine ⟨s, rfl, he, ?_⟩
          dsimp only
          rw [if_neg he]

theorem claim_C10_witness :
    resolve_content_doc ⟨⟨fun _ => none, none⟩, some ⟨some ""⟩⟩ (fun _ => .error "안씀")
      = .error iframe_src_error :=
  ((claim_C10 ⟨⟨fun _ => none, none⟩, some ⟨some ""⟩⟩ (fun _ => .error "안씀")).2
    ⟨some ""⟩ rfl).1 (Or.inr rfl)

end AeoSeoHelper
